import Mathlib

/-!
Verification of the driver-tip aggregation service.

The development shallowly embeds the TypeScript sources:
  * `utils/time-buckets.ts` (`dayBucket`, `weekBucket`),
  * `repositories/dynamo-tip.repository.ts` (`DynamoTipRepository`),
  * `schemas/tip-event.schema.ts` (`TipEventSchema`),
  * `tip-consumer-handler.ts` (`createTipConsumerHandler`),
  * `services/driver.service.ts` (`DriverService.getDriverTips`),
  * `handler.ts` (`handleGetDriverTips`).

Timestamps are modelled as integer milliseconds since the Unix epoch.
JavaScript `Date` parsing is modelled for the 4-digit-year UTC subset of the
ISO-8601 format accepted by ECMAScript (`YYYY-MM-DDTHH:MM:SS(.sss)?Z`); all
theorems about parsed timestamps carry the parse as a hypothesis, so the
restriction only narrows their scope.  All floating-point arithmetic in the
sources acts on integers small enough (< 2^53) that the operations are exact,
so integer arithmetic is a faithful model.  DynamoDB numbers are decimals with
exact addition (`ADD`), modelled by `ℚ`.
-/

/-- Model of `Math.floor(a / b)` for exact integer operands, `b > 0`. -/
def jsFloorDiv (a b : Int) : Int := a.fdiv b

/-- Model of `Math.ceil(a / b)` for exact integer operands, `b > 0`. -/
def jsCeilDiv (a b : Int) : Int := -((-a).fdiv b)

def msPerDay : Int := 86400000

/-- A proleptic Gregorian calendar date, as used by ECMAScript UTC accessors. -/
structure Civil where
  year : Int
  month : Int
  day : Int
deriving DecidableEq

/-- Days since the Unix epoch of a civil date (standard era-based algorithm,
matching ECMAScript `MakeDay`). -/
def daysFromCivil (y m d : Int) : Int :=
  let y' := y - (if m ≤ 2 then 1 else 0)
  let era := y'.fdiv 400
  let yoe := y' - era * 400
  let doy := (153 * (m + (if 2 < m then (-3) else 9)) + 2).fdiv 5 + d - 1
  let doe := yoe * 365 + yoe.fdiv 4 - yoe.fdiv 100 + doy
  era * 146097 + doe - 719468

/-- Civil date of a day count since the Unix epoch (inverse algorithm,
matching ECMAScript `YearFromTime`/`MonthFromTime`/`DateFromTime`). -/
def civilFromDays (z : Int) : Civil :=
  let z' := z + 719468
  let era := z'.fdiv 146097
  let doe := z' - era * 146097
  let yoe := (doe - doe.fdiv 1460 + doe.fdiv 36524 - doe.fdiv 146096).fdiv 365
  let y := yoe + era * 400
  let doy := doe - (365 * yoe + yoe.fdiv 4 - yoe.fdiv 100)
  let mp := (5 * doy + 2).fdiv 153
  let d := doy - (153 * mp + 2).fdiv 5 + 1
  let m := mp + (if mp < 10 then 3 else (-9))
  { year := if m ≤ 2 then y + 1 else y, month := m, day := d }

/-- Civil date of a millisecond timestamp (UTC). -/
def civilAt (ms : Int) : Civil := civilFromDays (ms.fdiv msPerDay)

/-- Model of `Date.prototype.getUTCFullYear`. -/
def utcYear (ms : Int) : Int := (civilAt ms).year

/-- Model of `Date.prototype.getUTCDay` (0 = Sunday). -/
def utcWeekday (ms : Int) : Int := (ms.fdiv msPerDay + 4).emod 7

def dval (c : Char) : Nat := c.toNat - 48

def digitsVal : List Char → Nat
  | [] => 0
  | c :: cs => dval c * 10 ^ cs.length + digitsVal cs

def allDigits (l : List Char) : Bool := l.all Char.isDigit

def isLeapYear (y : Int) : Bool :=
  (y.emod 4 == 0 && y.emod 100 != 0) || y.emod 400 == 0

def daysInMonth (y m : Int) : Int :=
  if m = 2 then (if isLeapYear y then 29 else 28)
  else if m = 4 ∨ m = 6 ∨ m = 9 ∨ m = 11 then 30
  else 31

/-- Assemble a UTC timestamp from parsed digit groups, validating ranges the
way ECMAScript ISO-string parsing does. -/
def isoCore (yc moc dc hc mic sc fc : List Char) : Option Int :=
  if allDigits (yc ++ moc ++ dc ++ hc ++ mic ++ sc ++ fc) then
    let y : Int := digitsVal yc
    let mo : Int := digitsVal moc
    let d : Int := digitsVal dc
    let hh : Int := digitsVal hc
    let mi : Int := digitsVal mic
    let ss : Int := digitsVal sc
    let frac : Int := digitsVal fc
    if 1 ≤ mo ∧ mo ≤ 12 ∧ 1 ≤ d ∧ d ≤ daysInMonth y mo ∧ hh ≤ 23 ∧ mi ≤ 59 ∧ ss ≤ 59 then
      some (daysFromCivil y mo d * msPerDay + hh * 3600000 + mi * 60000 + ss * 1000 + frac)
    else none
  else none

/-- Model of `new Date(s).getTime()` for UTC ISO-8601 strings
(`YYYY-MM-DDTHH:MM:SSZ` or `YYYY-MM-DDTHH:MM:SS.sssZ`); `none` models an
invalid date (`NaN`). -/
def parseIsoUtc (s : String) : Option Int :=
  match s.data with
  | [y1, y2, y3, y4, h1, mo1, mo2, h2, d1, d2, t, hh1, hh2, c1, mi1, mi2, c2, s1, s2, z] =>
    if h1 = '-' ∧ h2 = '-' ∧ t = 'T' ∧ c1 = ':' ∧ c2 = ':' ∧ z = 'Z' then
      isoCore [y1, y2, y3, y4] [mo1, mo2] [d1, d2] [hh1, hh2] [mi1, mi2] [s1, s2] []
    else none
  | [y1, y2, y3, y4, h1, mo1, mo2, h2, d1, d2, t, hh1, hh2, c1, mi1, mi2, c2, s1, s2, dot,
     f1, f2, f3, z] =>
    if h1 = '-' ∧ h2 = '-' ∧ t = 'T' ∧ c1 = ':' ∧ c2 = ':' ∧ dot = '.' ∧ z = 'Z' then
      isoCore [y1, y2, y3, y4] [mo1, mo2] [d1, d2] [hh1, hh2] [mi1, mi2] [s1, s2] [f1, f2, f3]
    else none
  | _ => none

def digitChar (n : Nat) : Char := Char.ofNat (48 + n % 10)

def pad2c (n : Int) : List Char := [digitChar (n.toNat / 10), digitChar n.toNat]

def pad3c (n : Int) : List Char :=
  [digitChar (n.toNat / 100), digitChar (n.toNat / 10), digitChar n.toNat]

def pad4c (n : Int) : List Char :=
  [digitChar (n.toNat / 1000), digitChar (n.toNat / 100), digitChar (n.toNat / 10),
   digitChar n.toNat]

/-- The `YYYY-MM-DD` character block of an ISO string. -/
def datePartChars (c : Civil) : List Char :=
  pad4c c.year ++ '-' :: pad2c c.month ++ '-' :: pad2c c.day

/-- The `THH:MM:SS.sssZ` character block of an ISO string. -/
def timePartChars (ms : Int) : List Char :=
  let r := ms.emod msPerDay
  'T' :: pad2c (r.fdiv 3600000) ++ ':' :: pad2c ((r.emod 3600000).fdiv 60000) ++
    ':' :: pad2c ((r.emod 60000).fdiv 1000) ++ '.' :: pad3c (r.emod 1000) ++ ['Z']

/-- Model of `Date.prototype.toISOString` for timestamps whose year lies in
0..9999 (the 4-digit-year range; `parseIsoUtc` only produces such
timestamps). -/
def toISOString (ms : Int) : String :=
  String.mk (datePartChars (civilAt ms) ++ timePartChars ms)

/-- The timestamp's UTC calendar date formatted `YYYY-MM-DD` (the spec's
description of the day bucket). -/
def utcDateString (ms : Int) : String := String.mk (datePartChars (civilAt ms))

/-- Model of `String.prototype.slice(0, n)` (the strings involved are ASCII,
so code units coincide with characters). -/
def jsSlice0 (s : String) (n : Nat) : String := String.mk (s.data.take n)

/-- `dayBucket` from `utils/time-buckets.ts`:
`new Date(date).toISOString().slice(0, 10)`.  `none` models the `RangeError`
thrown by `toISOString` on an invalid date. -/
def dayBucket (s : String) : Option String :=
  (parseIsoUtc s).map (fun ms => jsSlice0 (toISOString ms) 10)

/-- Model of `String(i)` for an integer-valued JS number. -/
def jsIntRepr (i : Int) : String :=
  if i < 0 then String.mk ('-' :: (Nat.repr (-i).toNat).data) else Nat.repr i.toNat

/-- Model of `String.prototype.padStart(2, "0")`. -/
def padStart2 (s : String) : String :=
  if s.length < 2 then String.mk (List.replicate (2 - s.length) '0') ++ s else s

/-- Model of `Date.UTC(y, 0, 1)`: ECMAScript maps a year argument in 0..99 to
1900 + year. -/
def jsDateUTCJan1 (y : Int) : Int :=
  daysFromCivil (if 0 ≤ y ∧ y ≤ 99 then y + 1900 else y) 1 1 * msPerDay

/-- The week number computed by `weekBucket` in `utils/time-buckets.ts`:
`Math.ceil((days + dateObj.getUTCDay() + 1) / 7)` where
`days = Math.floor((dateObj - firstDay) / 86400000)` and
`firstDay = new Date(Date.UTC(dateObj.getUTCFullYear(), 0, 1))`. -/
def jsWeekNumber (ms : Int) : Int :=
  let firstDay := jsDateUTCJan1 (utcYear ms)
  let days := jsFloorDiv (ms - firstDay) msPerDay
  jsCeilDiv (days + utcWeekday ms + 1) 7

def weekW : String := "-W"

/-- Result of `weekBucket` on an invalid date: `getUTCFullYear()` is `NaN` and
the template literal prints `NaN-WNaN`. -/
def nanWeekKey : String := "NaN-WNaN"

/-- `weekBucket` from `utils/time-buckets.ts`. -/
def weekBucket (s : String) : String :=
  match parseIsoUtc s with
  | none => nanWeekKey
  | some ms => jsIntRepr (utcYear ms) ++ weekW ++ padStart2 (jsIntRepr (jsWeekNumber ms))

/-- The week number as the spec words it: `firstDay` = Jan 1 00:00 UTC of the
timestamp's year (no 1900 adjustment), `daysSinceFirstDay` =
floor((timestamp − firstDay) / 1 day), and
week = ceil((daysSinceFirstDay + weekdayOffset + 1) / 7) with `weekdayOffset`
the UTC day-of-week of the timestamp itself. -/
def specWeekNumber (ms : Int) : Int :=
  ⌈((⌊((ms - daysFromCivil (utcYear ms) 1 1 * msPerDay : Int) : ℚ) /
      ((86400000 : ℕ) : ℚ)⌋ + utcWeekday ms + 1 : Int) : ℚ) / ((7 : ℕ) : ℚ)⌉

/-- The `YYYY-Www` key as the spec describes it. -/
def specWeekKey (ms : Int) : String :=
  jsIntRepr (utcYear ms) ++ weekW ++ padStart2 (jsIntRepr (specWeekNumber ms))

/-- The spec's reference timestamp `2024-01-15T10:30:00Z`. -/
def exTime : String := "2024-01-15T10:30:00Z"

/-! ## Aggregate store (`repositories/dynamo-tip.repository.ts`) -/

/-- One persisted aggregate row.  Rows written by `updateAggregation` always
carry all three attributes, so the `?? 0` / `?? now` fallbacks of
`toTipAggregation` are never exercised and the fields are total. -/
structure TipRow where
  totalAmount : ℚ
  createdAt : String
  updatedAt : String
deriving DecidableEq

/-- The DynamoDB table, keyed by (PK, SK). -/
def Table : Type := String × String → Option TipRow

def emptyTable : Table := fun _ => none

def driverTag : String := "DRIVER#"
def dayTag : String := "DAY#"
def weekTag : String := "WEEK#"

/-- The partition key `DRIVER#<driverId>`. -/
def pkOf (driverId : String) : String := driverTag ++ driverId

/-- `DynamoTipRepository.updateAggregation`: one atomic `UpdateCommand` with
`ADD totalAmount :amount SET updatedAt = :now,
createdAt = if_not_exists(createdAt, :now)`.  DynamoDB creates the row if
absent (`ADD` treats a missing number as 0, `if_not_exists` picks `:now`),
otherwise adds to the total, overwrites `updatedAt` and keeps `createdAt`. -/
def updateAggregation (driverId aggregationKey : String) (amount : ℚ) (now : String)
    (t : Table) : Table :=
  fun k =>
    if k = (pkOf driverId, aggregationKey) then
      match t (pkOf driverId, aggregationKey) with
      | none => some { totalAmount := amount, createdAt := now, updatedAt := now }
      | some r => some { totalAmount := r.totalAmount + amount, createdAt := r.createdAt,
                         updatedAt := now }
    else t k

/-- The row stored under `(DRIVER#driverId, aggregationKey)`. -/
def rowAt (t : Table) (driverId aggregationKey : String) : Option TipRow :=
  t (pkOf driverId, aggregationKey)

/-- The stored total, with absence read as zero. -/
def totalAmountAt (t : Table) (driverId aggregationKey : String) : ℚ :=
  match rowAt t driverId aggregationKey with
  | none => 0
  | some r => r.totalAmount

/-- A sequence of `updateAggregation` calls on one key, applied in some
serial order (DynamoDB executes concurrent `UpdateCommand`s on one item
atomically in some serialization order, so any interleaving is a sequence). -/
def applyIncrements (driverId aggregationKey : String) (l : List (ℚ × String))
    (t : Table) : Table :=
  l.foldl (fun acc p => updateAggregation driverId aggregationKey p.1 p.2 acc) t

/-- A tip event (`models/tip-event.model.ts`): already-validated payload. -/
structure TipEvent where
  driverId : String
  amount : ℚ
  eventTime : String
deriving DecidableEq

/-- One `updateAggregation` call as issued by `applyTip`. -/
structure UpdateCmd where
  driverId : String
  aggregationKey : String
  amount : ℚ
  now : String
deriving DecidableEq

/-- The two `updateAggregation` calls `applyTip` issues:
`(driverId, DAY#day)` and `(driverId, WEEK#week)`, both with the event's
amount and the single `now` captured at the start of processing.  `none`
models the synchronous throw of `dayBucket` on an unparseable `eventTime`. -/
def applyTipCmds (e : TipEvent) (now : String) : Option (List UpdateCmd) :=
  (dayBucket e.eventTime).map (fun day =>
    let week := weekBucket e.eventTime
    [{ driverId := e.driverId, aggregationKey := dayTag ++ day, amount := e.amount, now := now },
     { driverId := e.driverId, aggregationKey := weekTag ++ week, amount := e.amount, now := now }])

/-- The error a settled `Promise.all` surfaces: the first rejection if any. -/
def firstErr {ε : Type} (a b : Option ε) : Option ε :=
  match a with
  | some x => some x
  | none => b

/-- Run a list of update commands against the table; `failOf` is the failure
oracle for the store (a `some` is the `StoreUnavailable`/`StoreRejected`
rejection of that call, whose write is not applied).  Mirrors `Promise.all`:
every call is issued, and the first rejection (if any) is surfaced. -/
def runCmds {ε : Type} (failOf : UpdateCmd → Option ε) :
    List UpdateCmd → Table → Option ε × Table
  | [], t => (none, t)
  | c :: cs, t =>
    let t' := match failOf c with
      | none => updateAggregation c.driverId c.aggregationKey c.amount c.now t
      | some _ => t
    (firstErr (failOf c) (runCmds failOf cs t').1, (runCmds failOf cs t').2)

/-- `DynamoTipRepository.applyTip` under a store-failure oracle: derive both
buckets, then `await Promise.all` of the two `updateAggregation` calls.
The outer `none` is the synchronous `dayBucket` throw; otherwise the pair is
(error of the whole event if any increment rejected, resulting table). -/
def applyTipRun {ε : Type} (e : TipEvent) (now : String) (failOf : UpdateCmd → Option ε)
    (t : Table) : Option (Option ε × Table) :=
  (applyTipCmds e now).map (fun cmds => runCmds failOf cmds t)

/-- `toTipAggregation` output shape (`models/tip.model.ts`). -/
structure TipAggregation where
  driverId : String
  aggregationKey : String
  totalAmount : ℚ
  updatedAt : String
deriving DecidableEq

/-- Model of JS `String.prototype.replace(pattern, replacement)` with a string
pattern: replaces the first occurrence only. -/
def jsReplaceFirstChars (pat repl : List Char) : List Char → List Char
  | [] => []
  | c :: cs =>
    if pat.isPrefixOf (c :: cs) then repl ++ (c :: cs).drop pat.length
    else c :: jsReplaceFirstChars pat repl cs

def jsReplaceFirst (s pat repl : String) : String :=
  String.mk (jsReplaceFirstChars pat.data repl.data s.data)

def emptyStr : String := ""

/-- `DynamoTipRepository.toTipAggregation`, applied to a stored row with its
keys. -/
def toTipAggregation (pk sk : String) (r : TipRow) : TipAggregation :=
  { driverId := jsReplaceFirst pk driverTag emptyStr, aggregationKey := sk,
    totalAmount := r.totalAmount, updatedAt := r.updatedAt }

/-- `DynamoTipRepository.getAggregate`: point `GetCommand` plus mapping. -/
def getAggregate (t : Table) (driverId aggregationKey : String) : Option TipAggregation :=
  (t (pkOf driverId, aggregationKey)).map (toTipAggregation (pkOf driverId) aggregationKey)

/-- `DynamoTipRepository.getDailyTotal`. -/
def getDailyTotal (t : Table) (driverId day : String) : Option TipAggregation :=
  getAggregate t driverId (dayTag ++ day)

/-- `DynamoTipRepository.getWeeklyTotal`. -/
def getWeeklyTotal (t : Table) (driverId week : String) : Option TipAggregation :=
  getAggregate t driverId (weekTag ++ week)

/-! ## Query service and HTTP handler (`driver.service.ts`, `handler.ts`) -/

structure Driver where
  id : String
  firstname : String
  lastname : String
  driverLicenseId : String
deriving DecidableEq

inductive ServiceErr where
  /-- `DriverNotFoundError` thrown by `getDriverById`. -/
  | driverNotFound (id : String)
  /-- `RangeError` from `dayBucket` when the clock string is unparseable
  (unreachable for real `new Date().toISOString()` output). -/
  | invalidDate
deriving DecidableEq

/-- `DriverService.getDriverTips`.  The service reads the clock twice —
`dayBucket(new Date().toISOString())` then `weekBucket(new Date().toISOString())`
— so the model takes the two ISO strings those reads produce. -/
def getDriverTips (findById : String → Option Driver) (t : Table) (driverId : String)
    (nowStr1 nowStr2 : String) :
    Except ServiceErr (Option TipAggregation × Option TipAggregation) :=
  match findById driverId with
  | none => .error (.driverNotFound driverId)
  | some _ =>
    match dayBucket nowStr1 with
    | none => .error .invalidDate
    | some today =>
      let week := weekBucket nowStr2
      .ok (getDailyTotal t driverId today, getWeeklyTotal t driverId week)

/-- `handleGetDriverTips` from `handler.ts`: missing path parameter makes
`requirePathParameter` throw, and the handler's only catch block maps every
error — including `DriverNotFoundError` — to `internalError` (HTTP 500);
success wraps the service result in a 200. -/
def handleGetDriverTips (findById : String → Option Driver) (t : Table)
    (pathId : Option String) (nowStr1 nowStr2 : String) :
    Nat × Option (Option TipAggregation × Option TipAggregation) :=
  match pathId with
  | none => (500, none)
  | some id =>
    match getDriverTips findById t id nowStr1 nowStr2 with
    | .error _ => (500, none)
    | .ok r => (200, some r)

/-! ## Tip event schema (`schemas/tip-event.schema.ts`) and consumer
(`tip-consumer-handler.ts`) -/

/-- A parsed JSON value (`JSON.parse` output). -/
inductive JsonVal where
  | jnull : JsonVal
  | jbool : Bool → JsonVal
  | jnum : ℚ → JsonVal
  | jstr : String → JsonVal
  | jarr : List JsonVal → JsonVal
  | jobj : List (String × JsonVal) → JsonVal

def isSpaceChar (c : Char) : Bool := c = ' ' ∨ c = '\t' ∨ c = '\n' ∨ c = '\r'

/-- Model of `String.prototype.trim` for the whitespace that occurs here. -/
def jsTrimChars (l : List Char) : List Char :=
  ((l.dropWhile isSpaceChar).reverse.dropWhile isSpaceChar).reverse

def digitsFracVal (l : List Char) : ℚ := (digitsVal l : ℚ) / ((10 : ℚ) ^ l.length)

/-- Decimal-literal part of `Number(string)`: optional sign, then digits with
an optional decimal point (`"5"`, `"5."`, `"5.50"`, `".5"`). -/
def parseDecimalBody (l : List Char) : Option ℚ :=
  let intPart := l.takeWhile Char.isDigit
  let rest := l.drop intPart.length
  match rest with
  | [] => if intPart = [] then none else some (digitsVal intPart : ℚ)
  | '.' :: fr =>
    if allDigits fr ∧ (intPart ≠ [] ∨ fr ≠ []) then
      some ((digitsVal intPart : ℚ) + digitsFracVal fr)
    else none
  | _ => none

/-- Model of `Number(s)` restricted to decimal literals (the forms tip-event
payloads carry; hex/exponent/`Infinity` inputs are treated as `NaN`).  The
empty/whitespace string converts to 0, as in JS. -/
def jsStringToNumber (s : String) : Option ℚ :=
  match jsTrimChars s.data with
  | [] => some 0
  | '-' :: rest => (parseDecimalBody rest).map (fun q => -q)
  | '+' :: rest => parseDecimalBody rest
  | rest => parseDecimalBody rest

/-- Model of `Number(v)` as used by `z.coerce.number()`; `none` is `NaN`.
Arrays and objects are treated as `NaN` (JS additionally unwraps
single-element arrays, a case no tip payload produces). -/
def jsToNumber : JsonVal → Option ℚ
  | .jnum q => some q
  | .jstr s => jsStringToNumber s
  | .jbool b => some (if b then 1 else 0)
  | .jnull => some 0
  | .jarr _ => none
  | .jobj _ => none

def driverIdKey : String := "driverId"
def amountKey : String := "amount"
def eventTimeKey : String := "eventTime"

/-- `TipEventSchema.safeParse`: an object whose `driverId` is a non-empty
string, whose `amount` coerces (via `Number`) to a positive non-`NaN` number,
and whose `eventTime` is a string accepted by `new Date` (the schema's
`refine` checks `!isNaN(new Date(val).getTime())`). -/
def tipEventSafeParse : JsonVal → Option TipEvent
  | .jobj fields =>
    match fields.lookup driverIdKey, fields.lookup amountKey, fields.lookup eventTimeKey with
    | some (.jstr did), some av, some (.jstr et) =>
      match jsToNumber av with
      | none => none
      | some q =>
        if 1 ≤ did.length ∧ 0 < q ∧ (parseIsoUtc et).isSome then
          some { driverId := did, amount := q, eventTime := et }
        else none
    | _, _, _ => none
  | _ => none

/-- One SQS record: message id and raw body. -/
structure SQSRecord where
  messageId : String
  body : String
deriving DecidableEq

/-- The per-record loop body of `createTipConsumerHandler`, as a recursion
over the batch.  `parse` is the `JSON.parse` oracle (`none` = throw),
`appErr i` the outcome of the i-th record's `applyTip` call (`some` =
rejected promise), `appEff i` the state effect of that call (issued whether
or not the call ultimately rejects — a rejected `Promise.all` may have
applied one bucket).  Returns the `batchItemFailures` ids in order and the
final state. -/
def processRecords {ε σ : Type} (parse : String → Option JsonVal) (appErr : Nat → Option ε)
    (appEff : Nat → TipEvent → σ → σ) : Nat → List SQSRecord → σ → List String × σ
  | _, [], st => ([], st)
  | i, r :: rs, st =>
    match parse r.body with
    | none =>
      let res := processRecords parse appErr appEff (i + 1) rs st
      (r.messageId :: res.1, res.2)
    | some j =>
      match tipEventSafeParse j with
      | none =>
        let res := processRecords parse appErr appEff (i + 1) rs st
        (r.messageId :: res.1, res.2)
      | some ev =>
        let res := processRecords parse appErr appEff (i + 1) rs (appEff i ev st)
        match appErr i with
        | some _ => (r.messageId :: res.1, res.2)
        | none => res

/-- `createTipConsumerHandler`'s handler on a whole batch. -/
def tipConsumerHandler {ε σ : Type} (parse : String → Option JsonVal) (appErr : Nat → Option ε)
    (appEff : Nat → TipEvent → σ → σ) (records : List SQSRecord) (st : σ) : List String × σ :=
  processRecords parse appErr appEff 0 records st

/-- Whether one record fails on its own: body unparseable, schema rejection,
or its `applyTip` call rejecting.  A function of the single record (and its
own call's outcome) only. -/
def itemFails {ε : Type} (parse : String → Option JsonVal) (appErr : Nat → Option ε)
    (i : Nat) (r : SQSRecord) : Bool :=
  match parse r.body with
  | none => true
  | some j =>
    match tipEventSafeParse j with
    | none => true
    | some _ => (appErr i).isSome

/-- The claim's description of the returned ids: exactly the records that fail
on their own, in batch order. -/
def failedIds {ε : Type} (parse : String → Option JsonVal) (appErr : Nat → Option ε) :
    Nat → List SQSRecord → List String
  | _, [] => []
  | i, r :: rs =>
    if itemFails parse appErr i r then r.messageId :: failedIds parse appErr (i + 1) rs
    else failedIds parse appErr (i + 1) rs

/-- The claim's description of the final state: the effects of exactly the
schema-valid records, folded in batch order. -/
def validEffects {ε σ : Type} (parse : String → Option JsonVal) (appErr : Nat → Option ε)
    (appEff : Nat → TipEvent → σ → σ) : Nat → List SQSRecord → σ → σ
  | _, [], st => st
  | i, r :: rs, st =>
    match (parse r.body).bind tipEventSafeParse with
    | none => validEffects parse appErr appEff (i + 1) rs st
    | some ev => validEffects parse appErr appEff (i + 1) rs (appEff i ev st)

/-- Chronological order on ISO timestamp strings (`false` when either side is
not a valid timestamp). -/
def tsLe (a b : String) : Bool :=
  match parseIsoUtc a, parseIsoUtc b with
  | some x, some y => x ≤ y
  | _, _ => false

/-- The `now` arguments of a sequence of increments are non-decreasing
timestamps (what a monotone wall clock delivers). -/
def nowsMonotone : List String → Bool
  | [] => true
  | [n] => (parseIsoUtc n).isSome
  | a :: b :: rest => tsLe a b && nowsMonotone (b :: rest)

/-! ## Theorems -/

lemma totalAmountAt_update (d k : String) (a : ℚ) (n : String) (t : Table) :
    totalAmountAt (updateAggregation d k a n t) d k = totalAmountAt t d k + a := by
  simp only [totalAmountAt, rowAt, updateAggregation, if_pos]
  cases t (pkOf d, k) <;> simp

lemma totalAmountAt_applyIncrements (d k : String) (l : List (ℚ × String)) :
    ∀ t : Table, totalAmountAt (applyIncrements d k l t) d k
      = totalAmountAt t d k + (l.map Prod.fst).sum := by
  induction l with
  | nil => intro t; simp [applyIncrements]
  | cons p rest ih =>
    intro t
    have hfold : applyIncrements d k (p :: rest) t
        = applyIncrements d k rest (updateAggregation d k p.1 p.2 t) := by
      simp [applyIncrements]
    rw [hfold, ih, totalAmountAt_update]
    simp [add_assoc]

/-- Claim C1: starting from an absent row, any serialization of
`updateAggregation` calls on one `(driverId, aggregationKey)` leaves
`totalAmount` equal to the exact sum of all the amounts passed — no lost
updates and no deduplication, whatever the order or multiplicity of the
events. -/
theorem c1_atomic_accumulation (d k : String) (l : List (ℚ × String)) (t : Table)
    (h : rowAt t d k = none) :
    totalAmountAt (applyIncrements d k l t) d k = (l.map Prod.fst).sum := by
  rw [totalAmountAt_applyIncrements]
  simp [totalAmountAt, h]

def wDriver : String := "d1"
def wDayKey : String := "DAY#2024-01-15"
def wWeekKey : String := "WEEK#2024-W03"
def wNowA : String := "2024-01-15T10:30:05Z"
def wNowB : String := "2024-01-15T10:30:09Z"

/-- The amount-5.50 event delivered twice, as a pair of increments. -/
def wDupl : List (ℚ × String) := [((11 : ℚ) / 2, wNowA), ((11 : ℚ) / 2, wNowB)]

theorem c1_atomic_accumulation_witness :
    rowAt emptyTable wDriver wDayKey = none ∧
    rowAt emptyTable wDriver wWeekKey = none ∧
    totalAmountAt (applyIncrements wDriver wDayKey wDupl emptyTable) wDriver wDayKey = 11 ∧
    totalAmountAt (applyIncrements wDriver wWeekKey wDupl emptyTable) wDriver wWeekKey = 11 :=
  ⟨rfl, rfl,
   (c1_atomic_accumulation wDriver wDayKey wDupl emptyTable rfl).trans (by norm_num [wDupl]),
   (c1_atomic_accumulation wDriver wWeekKey wDupl emptyTable rfl).trans (by norm_num [wDupl])⟩

lemma rowAt_update_present (d k : String) (a : ℚ) (n : String) (t : Table) (r : TipRow)
    (h : rowAt t d k = some r) :
    rowAt (updateAggregation d k a n t) d k
      = some { totalAmount := r.totalAmount + a, createdAt := r.createdAt, updatedAt := n } := by
  simp only [rowAt, updateAggregation, if_pos]
  rw [show t (pkOf d, k) = some r from h]

lemma rowAt_update_absent (d k : String) (a : ℚ) (n : String) (t : Table)
    (h : rowAt t d k = none) :
    rowAt (updateAggregation d k a n t) d k
      = some { totalAmount := a, createdAt := n, updatedAt := n } := by
  simp only [rowAt, updateAggregation, if_pos]
  rw [show t (pkOf d, k) = none from h]

lemma rowAt_applyIncrements_present (d k : String) (l : List (ℚ × String)) :
    ∀ (t : Table) (r : TipRow), rowAt t d k = some r →
      ∃ r', rowAt (applyIncrements d k l t) d k = some r' ∧
        r'.createdAt = r.createdAt ∧
        r'.updatedAt = (l.map Prod.snd).getLastD r.updatedAt := by
  induction l with
  | nil => exact fun t r h => ⟨r, h, rfl, rfl⟩
  | cons p rest ih =>
    intro t r h
    obtain ⟨r', h1, h2, h3⟩ := ih (updateAggregation d k p.1 p.2 t)
      { totalAmount := r.totalAmount + p.1, createdAt := r.createdAt, updatedAt := p.2 }
      (rowAt_update_present d k p.1 p.2 t r h)
    refine ⟨r', ?_, h2, ?_⟩
    · simpa [applyIncrements] using h1
    · rw [List.map_cons, List.getLastD_cons]; exact h3

lemma tsLe_trans {a b c : String} (h1 : tsLe a b = true) (h2 : tsLe b c = true) :
    tsLe a c = true := by
  unfold tsLe at h1 h2 ⊢
  cases hx : parseIsoUtc a <;> cases hy : parseIsoUtc b <;> cases hz : parseIsoUtc c <;>
    simp [hx, hy, hz] at h1 h2 ⊢
  omega

lemma nowsMonotone_head_last (ns : List String) :
    ∀ n : String, nowsMonotone (n :: ns) = true → tsLe n (ns.getLastD n) = true := by
  induction ns with
  | nil =>
    intro n h
    simp only [nowsMonotone] at h
    obtain ⟨x, hx⟩ := Option.isSome_iff_exists.mp h
    simp [tsLe, hx]
  | cons b tl ih =>
    intro n h
    simp only [nowsMonotone, Bool.and_eq_true] at h
    have hlast := ih b h.2
    rw [List.getLastD_cons]
    exact tsLe_trans h.1 hlast

/-- Claim C2 (amended): after a non-empty sequence of successful increments on
an initially absent row, `createdAt` is the `now` of the first increment and
is never overwritten, `updatedAt` is the `now` of the last increment, and —
provided the `now` arguments are valid timestamps in non-decreasing order, as
wall-clock captures are — `createdAt ≤ updatedAt`. -/
theorem c2_created_updated_at (d k : String) (p : ℚ × String) (rest : List (ℚ × String))
    (t : Table) (h : rowAt t d k = none) :
    (rowAt (applyIncrements d k (p :: rest) t) d k).map TipRow.createdAt = some p.2 ∧
    (rowAt (applyIncrements d k (p :: rest) t) d k).map TipRow.updatedAt
      = some ((rest.map Prod.snd).getLastD p.2) ∧
    (nowsMonotone ((p :: rest).map Prod.snd) = true →
      tsLe p.2 ((rest.map Prod.snd).getLastD p.2) = true) := by
  obtain ⟨r', h1, h2, h3⟩ := rowAt_applyIncrements_present d k rest
    (updateAggregation d k p.1 p.2 t)
    { totalAmount := p.1, createdAt := p.2, updatedAt := p.2 }
    (rowAt_update_absent d k p.1 p.2 t h)
  have hfold : applyIncrements d k (p :: rest) t
      = applyIncrements d k rest (updateAggregation d k p.1 p.2 t) := by
    simp [applyIncrements]
  refine ⟨?_, ?_, ?_⟩
  · rw [hfold, h1]; simp [h2]
  · rw [hfold, h1]; simp [h3]
  · intro hm
    have := nowsMonotone_head_last (rest.map Prod.snd) p.2 (by simpa using hm)
    exact this

def wMono : List (ℚ × String) := [((2 : ℚ), wNowA), ((3 : ℚ), wNowB), ((4 : ℚ), wNowB)]

theorem c2_created_updated_at_witness :
    rowAt emptyTable wDriver wDayKey = none ∧
    ((rowAt (applyIncrements wDriver wDayKey (((2 : ℚ), wNowA) :: wMono.tail) emptyTable)
        wDriver wDayKey).map TipRow.createdAt = some wNowA ∧
     (rowAt (applyIncrements wDriver wDayKey (((2 : ℚ), wNowA) :: wMono.tail) emptyTable)
        wDriver wDayKey).map TipRow.updatedAt = some wNowB ∧
     (nowsMonotone ((((2 : ℚ), wNowA) :: wMono.tail).map Prod.snd) = true →
       tsLe wNowA wNowB = true)) :=
  ⟨rfl, c2_created_updated_at wDriver wDayKey ((2 : ℚ), wNowA) wMono.tail emptyTable rfl⟩

def wLate : String := "2024-01-02T00:00:00Z"
def wEarly : String := "2024-01-01T00:00:00Z"

/-- Two increments whose second `now` is earlier than the first. -/
def wBackwards : List (ℚ × String) := [((1 : ℚ), wLate), ((1 : ℚ), wEarly)]

theorem c2_created_updated_at_counterexample :
    (rowAt (applyIncrements wDriver wDayKey wBackwards emptyTable) wDriver wDayKey).map
        TipRow.createdAt = some wLate ∧
    (rowAt (applyIncrements wDriver wDayKey wBackwards emptyTable) wDriver wDayKey).map
        TipRow.updatedAt = some wEarly ∧
    tsLe wLate wEarly = false := by
  refine ⟨rfl, rfl, by decide⟩

lemma datePartChars_length (c : Civil) : (datePartChars c).length = 10 := by
  simp [datePartChars, pad4c, pad2c]

lemma dayBucket_eq_utcDateString {s : String} {ms : Int} (h : parseIsoUtc s = some ms) :
    dayBucket s = some (utcDateString ms) := by
  unfold dayBucket
  rw [h]
  unfold jsSlice0 toISOString utcDateString
  exact congrArg (fun l => some (String.mk l)) (List.take_left' (datePartChars_length _))

lemma floor_div_natCast_eq_fdiv (a : ℤ) (d : ℕ) :
    ⌊(a : ℚ) / (d : ℚ)⌋ = a.fdiv d := by
  rw [Rat.floor_intCast_div_natCast]
  exact (Int.fdiv_eq_ediv a (Int.natCast_nonneg d)).symm

lemma ceil_div_natCast_eq_jsCeilDiv (a : ℤ) (d : ℕ) :
    ⌈(a : ℚ) / (d : ℚ)⌉ = jsCeilDiv a d := by
  have h1 : ⌊-((a : ℚ) / (d : ℚ))⌋ = -⌈(a : ℚ) / (d : ℚ)⌉ := Int.floor_neg
  have h2 : -((a : ℚ) / (d : ℚ)) = (((-a : ℤ) : ℚ) / (d : ℚ)) := by push_cast; ring
  have h3 : ⌊-((a : ℚ) / (d : ℚ))⌋ = (-a).fdiv d := by
    rw [h2]; exact floor_div_natCast_eq_fdiv (-a) d
  unfold jsCeilDiv
  omega

/-- The spec's week formula with its real-valued floor and ceiling rewritten
as integer operations. -/
lemma specWeekNumber_eq_int (ms : Int) :
    specWeekNumber ms
      = jsCeilDiv (jsFloorDiv (ms - daysFromCivil (utcYear ms) 1 1 * msPerDay) msPerDay
          + utcWeekday ms + 1) 7 := by
  unfold specWeekNumber
  rw [floor_div_natCast_eq_fdiv, ceil_div_natCast_eq_jsCeilDiv]
  rfl

/-- Claim C5 (amended): for timestamps whose UTC year is at least 100,
`weekBucket` produces exactly the `YYYY-Www` key of the spec's formula
(week = ceil((floor((ts − Jan1-of-year) / 1 day) + weekday-of-ts + 1) / 7),
two-digit-padded). -/
theorem c5_week_bucket_formula (s : String) (ms : Int) (h : parseIsoUtc s = some ms)
    (hy : 100 ≤ utcYear ms) :
    weekBucket s = specWeekKey ms := by
  have hnum : jsWeekNumber ms = specWeekNumber ms := by
    rw [specWeekNumber_eq_int]
    unfold jsWeekNumber jsDateUTCJan1
    rw [if_neg (by omega : ¬(0 ≤ utcYear ms ∧ utcYear ms ≤ 99))]
  unfold weekBucket specWeekKey
  simp only [h, hnum]

theorem c5_week_bucket_formula_witness :
    parseIsoUtc exTime = some 1705314600000 ∧ 100 ≤ utcYear 1705314600000 ∧
    weekBucket exTime = specWeekKey 1705314600000 ∧ weekBucket exTime = "2024-W03" :=
  ⟨by decide, by decide,
   c5_week_bucket_formula exTime 1705314600000 (by decide) (by decide), by decide⟩

/-- A valid timestamp in year 99: `Date.UTC(99, 0, 1)` resolves to 1999, so
`weekBucket` measures the day count from the wrong century and disagrees with
the spec's formula. -/
def wOldTime : String := "0099-01-15T00:00:00Z"

theorem c5_week_bucket_formula_counterexample :
    parseIsoUtc wOldTime = some (-59041785600000) ∧
    weekBucket wOldTime ≠ specWeekKey (-59041785600000) := by
  refine ⟨by decide, ?_⟩
  unfold specWeekKey
  rw [specWeekNumber_eq_int]
  decide

/-- Claim C6: for every valid timestamp, `dayBucket` is the timestamp's UTC
calendar date formatted `YYYY-MM-DD`, and both bucket functions are pure —
equal timestamp strings always produce equal keys. -/
theorem c6_day_bucket_pure (s : String) (ms : Int) (h : parseIsoUtc s = some ms) :
    dayBucket s = some (utcDateString ms) ∧
    (∀ s2 : String, s2 = s → dayBucket s2 = dayBucket s ∧ weekBucket s2 = weekBucket s) :=
  ⟨dayBucket_eq_utcDateString h, fun _ hs => by rw [hs]; exact ⟨rfl, rfl⟩⟩

theorem c6_day_bucket_pure_witness :
    parseIsoUtc exTime = some 1705314600000 ∧
    dayBucket exTime = some (utcDateString 1705314600000) ∧
    utcDateString 1705314600000 = "2024-01-15" :=
  ⟨by decide, (c6_day_bucket_pure exTime 1705314600000 (by decide)).1, by decide⟩

/-- The day-bucket increment the spec prescribes for an event. -/
def dayCmdOf (e : TipEvent) (now day : String) : UpdateCmd :=
  { driverId := e.driverId, aggregationKey := dayTag ++ day, amount := e.amount, now := now }

/-- The week-bucket increment the spec prescribes for an event. -/
def weekCmdOf (e : TipEvent) (now : String) : UpdateCmd :=
  { driverId := e.driverId, aggregationKey := weekTag ++ weekBucket e.eventTime,
    amount := e.amount, now := now }

/-- Claim C3: `applyTip` issues exactly the two increments
`(driverId, DAY#day)` and `(driverId, WEEK#week)`, both with the event's
amount and one `now` captured once; the run fails iff at least one of the two
increments fails, and the surfaced error is the store's own (first) error —
never swallowed. -/
theorem c3_applyTip_two_increments (e : TipEvent) (now day : String)
    (h : dayBucket e.eventTime = some day) :
    applyTipCmds e now = some [dayCmdOf e now day, weekCmdOf e now] ∧
    ∀ {ε : Type} (failOf : UpdateCmd → Option ε) (t : Table),
      ∃ t2, applyTipRun e now failOf t
          = some (firstErr (failOf (dayCmdOf e now day)) (failOf (weekCmdOf e now)), t2) ∧
        (firstErr (failOf (dayCmdOf e now day)) (failOf (weekCmdOf e now)) = none ↔
          failOf (dayCmdOf e now day) = none ∧ failOf (weekCmdOf e now) = none) := by
  have hc : applyTipCmds e now = some [dayCmdOf e now day, weekCmdOf e now] := by
    unfold applyTipCmds dayCmdOf weekCmdOf
    rw [h]
    rfl
  refine ⟨hc, ?_⟩
  intro ε failOf t
  refine ⟨(runCmds failOf [dayCmdOf e now day, weekCmdOf e now] t).2, ?_, ?_⟩
  · unfold applyTipRun
    rw [hc]
    simp only [Option.map_some']
    have : (runCmds failOf [dayCmdOf e now day, weekCmdOf e now] t).1
        = firstErr (failOf (dayCmdOf e now day)) (failOf (weekCmdOf e now)) := by
      simp only [runCmds]
      cases failOf (weekCmdOf e now) <;> cases failOf (dayCmdOf e now day) <;> rfl
    rw [← this]
  · cases failOf (dayCmdOf e now day) <;> cases failOf (weekCmdOf e now) <;>
      simp [firstErr]

def wDay : String := "2024-01-15"
def wEvent : TipEvent := { driverId := wDriver, amount := 3, eventTime := exTime }

/-- A store oracle that rejects exactly the week-bucket increment. -/
def wFailWeek : UpdateCmd → Option Unit :=
  fun c => if c = weekCmdOf wEvent wNowA then some () else none

theorem c3_applyTip_two_increments_witness :
    dayBucket wEvent.eventTime = some wDay ∧
    applyTipCmds wEvent wNowA = some [dayCmdOf wEvent wNowA wDay, weekCmdOf wEvent wNowA] ∧
    ∃ t2, applyTipRun wEvent wNowA wFailWeek emptyTable
        = some (firstErr (wFailWeek (dayCmdOf wEvent wNowA wDay))
            (wFailWeek (weekCmdOf wEvent wNowA)), t2) ∧
      (firstErr (wFailWeek (dayCmdOf wEvent wNowA wDay)) (wFailWeek (weekCmdOf wEvent wNowA))
          = none ↔
        wFailWeek (dayCmdOf wEvent wNowA wDay) = none ∧
          wFailWeek (weekCmdOf wEvent wNowA) = none) :=
  ⟨by decide, (c3_applyTip_two_increments wEvent wNowA wDay (by decide)).1,
   (c3_applyTip_two_increments wEvent wNowA wDay (by decide)).2 wFailWeek emptyTable⟩

/-- Claim C10: any event accepted by `TipEventSchema` has a parseable
`eventTime`, so inside `applyTip` the bucket derivation is total — `dayBucket`
returns the formatted UTC date instead of throwing, `weekBucket` returns a
year/week-shaped key instead of `NaN-WNaN`, and the command derivation
succeeds for every `now`. -/
theorem c10_validated_events_bucket_safely (j : JsonVal) (ev : TipEvent) (now : String)
    (h : tipEventSafeParse j = some ev) :
    ∃ ms, parseIsoUtc ev.eventTime = some ms ∧
      dayBucket ev.eventTime = some (utcDateString ms) ∧
      weekBucket ev.eventTime
        = jsIntRepr (utcYear ms) ++ weekW ++ padStart2 (jsIntRepr (jsWeekNumber ms)) ∧
      (applyTipCmds ev now).isSome := by
  have hsome : (parseIsoUtc ev.eventTime).isSome := by
    cases j with
    | jobj fields =>
      simp only [tipEventSafeParse] at h
      split at h
      case _ did av et hl =>
        split at h
        case _ => exact absurd h (by simp)
        case _ q hq =>
          split at h
          case isTrue hcond =>
            cases h
            exact hcond.2.2
          case isFalse => exact absurd h (by simp)
      case _ => exact absurd h (by simp)
    | jnull => exact absurd h (by simp [tipEventSafeParse])
    | jbool b => exact absurd h (by simp [tipEventSafeParse])
    | jnum q => exact absurd h (by simp [tipEventSafeParse])
    | jstr s => exact absurd h (by simp [tipEventSafeParse])
    | jarr l => exact absurd h (by simp [tipEventSafeParse])
  obtain ⟨ms, hms⟩ := Option.isSome_iff_exists.mp hsome
  refine ⟨ms, hms, dayBucket_eq_utcDateString hms, ?_, ?_⟩
  · unfold weekBucket
    simp [hms]
  · unfold applyTipCmds
    rw [dayBucket_eq_utcDateString hms]
    simp

def wJson1 : JsonVal :=
  .jobj [(driverIdKey, .jstr wDriver), (amountKey, .jnum 6), (eventTimeKey, .jstr exTime)]

def wEvent6 : TipEvent := { driverId := wDriver, amount := 6, eventTime := exTime }

theorem c10_validated_events_bucket_safely_witness :
    tipEventSafeParse wJson1 = some wEvent6 ∧
    (∃ ms, parseIsoUtc wEvent6.eventTime = some ms ∧
      dayBucket wEvent6.eventTime = some (utcDateString ms) ∧
      weekBucket wEvent6.eventTime
        = jsIntRepr (utcYear ms) ++ weekW ++ padStart2 (jsIntRepr (jsWeekNumber ms)) ∧
      (applyTipCmds wEvent6 wNowA).isSome) :=
  ⟨by decide, c10_validated_events_bucket_safely wJson1 wEvent6 wNowA (by decide)⟩

lemma processRecords_fst {ε σ : Type} (parse : String → Option JsonVal)
    (appErr : Nat → Option ε) (appEff : Nat → TipEvent → σ → σ) :
    ∀ (records : List SQSRecord) (i : Nat) (st : σ),
      (processRecords parse appErr appEff i records st).1 = failedIds parse appErr i records := by
  intro records
  induction records with
  | nil => intro i st; rfl
  | cons r rs ih =>
    intro i st
    cases hp : parse r.body with
    | none => simp [processRecords, failedIds, itemFails, hp, ih]
    | some j =>
      cases hv : tipEventSafeParse j with
      | none => simp [processRecords, failedIds, itemFails, hp, hv, ih]
      | some ev =>
        cases he : appErr i with
        | none => simp [processRecords, failedIds, itemFails, hp, hv, he, ih]
        | some err => simp [processRecords, failedIds, itemFails, hp, hv, he, ih]

lemma processRecords_snd {ε σ : Type} (parse : String → Option JsonVal)
    (appErr : Nat → Option ε) (appEff : Nat → TipEvent → σ → σ) :
    ∀ (records : List SQSRecord) (i : Nat) (st : σ),
      (processRecords parse appErr appEff i records st).2
        = validEffects parse appErr appEff i records st := by
  intro records
  induction records with
  | nil => intro i st; rfl
  | cons r rs ih =>
    intro i st
    cases hp : parse r.body with
    | none => simp [processRecords, validEffects, hp, ih]
    | some j =>
      cases hv : tipEventSafeParse j with
      | none => simp [processRecords, validEffects, hp, hv, ih]
      | some ev =>
        cases he : appErr i with
        | none => simp [processRecords, validEffects, hp, hv, he, ih]
        | some err => simp [processRecords, validEffects, hp, hv, he, ih]

def wBody1 : String := "tip-event-body-1"
def wBody2 : String := "tip-event-body-2"
def wMsg1 : String := "msg-1"
def wMsg2 : String := "msg-2"

/-- The second payload of the spec's scenario: `amount = -1`. -/
def wJson2 : JsonVal :=
  .jobj [(driverIdKey, .jstr wDriver), (amountKey, .jnum (-1)), (eventTimeKey, .jstr exTime)]

/-- A `JSON.parse` oracle for the two scenario bodies. -/
def wParse : String → Option JsonVal :=
  fun s => if s = wBody1 then some wJson1 else if s = wBody2 then some wJson2 else none

def wRecords : List SQSRecord :=
  [{ messageId := wMsg1, body := wBody1 }, { messageId := wMsg2, body := wBody2 }]

/-- The repository effect of one `applyTip` call with an always-available
store. -/
def wApply : Nat → TipEvent → Table → Table := fun _ ev t =>
  match applyTipRun ev wNowA (fun _ => (none : Option Unit)) t with
  | some p => p.2
  | none => t

/-- Claim C4: the batch consumer returns exactly the ids of the records that
fail on their own (bad JSON, schema rejection, or their `applyTip` call
raising) in batch order, applies the effects of exactly the schema-valid
records, and one record's failure never affects another's outcome (each
record's membership in the failed set is a function of that record alone);
in the spec's 2-item scenario with the second amount −1, only the second id
is returned and the first item's aggregate is updated. -/
theorem c4_batch_isolation :
    (∀ {ε σ : Type} (parse : String → Option JsonVal) (appErr : Nat → Option ε)
        (appEff : Nat → TipEvent → σ → σ) (records : List SQSRecord) (st : σ),
      (tipConsumerHandler parse appErr appEff records st).1
          = failedIds parse appErr 0 records ∧
      (tipConsumerHandler parse appErr appEff records st).2
          = validEffects parse appErr appEff 0 records st) ∧
    (tipConsumerHandler wParse (fun _ => (none : Option Unit)) wApply wRecords emptyTable).1
        = [wMsg2] ∧
    totalAmountAt
      (tipConsumerHandler wParse (fun _ => (none : Option Unit)) wApply wRecords emptyTable).2
      wDriver wDayKey = 6 := by
  refine ⟨?_, by decide, by decide⟩
  intro ε σ parse appErr appEff records st
  exact ⟨processRecords_fst parse appErr appEff records 0 st,
         processRecords_snd parse appErr appEff records 0 st⟩

def wAbsentDriver : String := "ghost"

def noDrivers : String → Option Driver := fun _ => none

/-- Claim C7 (code behavior at the failing input): for a request whose driver
does not exist, `handleGetDriverTips` returns HTTP 500 (`internalError`), not
the 404 the spec states — its catch block has no `DriverNotFoundError`
branch, unlike `handleGetDriver`. -/
theorem c7_missing_driver_tips_returns_500 :
    handleGetDriverTips noDrivers emptyTable (some wAbsentDriver) exTime exTime = (500, none) ∧
    (handleGetDriverTips noDrivers emptyTable (some wAbsentDriver) exTime exTime).1 ≠ 404 :=
  ⟨rfl, by decide⟩

/-- Claim C8: for an existing driver with no tip ever recorded in any bucket,
`getDriverTips` succeeds with both aggregates absent — a valid non-error
outcome. -/
theorem c8_zero_tips_yields_ok_none (findById : String → Option Driver) (t : Table)
    (id : String) (drv : Driver) (s1 s2 : String) (ms1 : Int)
    (hd : findById id = some drv)
    (hclock : parseIsoUtc s1 = some ms1)
    (hempty : ∀ k : String, t (pkOf id, k) = none) :
    getDriverTips findById t id s1 s2 = .ok (none, none) := by
  simp only [getDriverTips, hd, dayBucket_eq_utcDateString hclock, getDailyTotal,
    getWeeklyTotal, getAggregate, hempty, Option.map_none']

def wDrv : Driver :=
  { id := wDriver, firstname := wDriver, lastname := wDriver, driverLicenseId := wDriver }

def wFind : String → Option Driver := fun s => if s = wDriver then some wDrv else none

theorem c8_zero_tips_yields_ok_none_witness :
    wFind wDriver = some wDrv ∧ parseIsoUtc exTime = some 1705314600000 ∧
    (∀ k : String, emptyTable (pkOf wDriver, k) = none) ∧
    getDriverTips wFind emptyTable wDriver exTime exTime = .ok (none, none) :=
  ⟨by decide, by decide, fun _ => rfl,
   c8_zero_tips_yields_ok_none wFind emptyTable wDriver wDrv exTime exTime 1705314600000
     (by decide) (by decide) (fun _ => rfl)⟩

def wSatNight : String := "2024-01-06T23:59:59Z"
def wSunMidnight : String := "2024-01-07T00:00:00Z"
def wDay06 : String := "DAY#2024-01-06"
def wDay07 : String := "DAY#2024-01-07"
def wWeek01 : String := "WEEK#2024-W01"
def wWeek02 : String := "WEEK#2024-W02"

def wRow (q : ℚ) : TipRow := { totalAmount := q, createdAt := wNowA, updatedAt := wNowA }

/-- A table distinguishing all four buckets around the Saturday→Sunday
boundary (under `weekBucket`'s formula, Jan 6 2024 lies in `2024-W02` and
Jan 7 2024 in `2024-W01`). -/
def wTbl : Table := fun k =>
  if k = (pkOf wDriver, wDay06) then some (wRow 1)
  else if k = (pkOf wDriver, wDay07) then some (wRow 2)
  else if k = (pkOf wDriver, wWeek02) then some (wRow 3)
  else if k = (pkOf wDriver, wWeek01) then some (wRow 4)
  else none

/-- The result the claim predicts when both keys are derived from the single
instant `s`. -/
def singleInstantTips (t : Table) (id s : String) :
    Option TipAggregation × Option TipAggregation :=
  (getDailyTotal t id ((dayBucket s).getD emptyStr), getWeeklyTotal t id (weekBucket s))

theorem c9_single_instant_counterexample :
    (getDriverTips wFind wTbl wDriver wSatNight wSunMidnight).toOption
        ≠ some (singleInstantTips wTbl wDriver wSatNight) ∧
    (getDriverTips wFind wTbl wDriver wSatNight wSunMidnight).toOption
        ≠ some (singleInstantTips wTbl wDriver wSunMidnight) :=
  ⟨by decide, by decide⟩

/-- Claim C9 (amended): `getDriverTips` reads the clock twice — once for the
day key, once for the week key; when the two reads return the same instant,
the day and week keys are both derived from it and both aggregates are
fetched from the store. -/
theorem c9_same_instant_keys (findById : String → Option Driver) (t : Table) (id : String)
    (drv : Driver) (s : String) (ms : Int)
    (hd : findById id = some drv) (hs : parseIsoUtc s = some ms) :
    getDriverTips findById t id s s
      = .ok (getDailyTotal t id (utcDateString ms), getWeeklyTotal t id (weekBucket s)) := by
  simp only [getDriverTips, hd, dayBucket_eq_utcDateString hs]

theorem c9_same_instant_keys_witness :
    wFind wDriver = some wDrv ∧ parseIsoUtc wSatNight = some 1704585599000 ∧
    getDriverTips wFind wTbl wDriver wSatNight wSatNight
      = .ok (getDailyTotal wTbl wDriver (utcDateString 1704585599000),
          getWeeklyTotal wTbl wDriver (weekBucket wSatNight)) :=
  ⟨by decide, by decide,
   c9_same_instant_keys wFind wTbl wDriver wDrv wSatNight 1704585599000 (by decide) (by decide)⟩
